import Mathlib

/-!
Shallow embedding of the synergos_worker REST handlers
(src/rest_rpc/align.py, src/rest_rpc/predict.py, src/rest_rpc/terminate.py)
over explicit record-store and process-cache state, together with proofs
about the lifecycle, alignment and prediction operations.
-/

/-- Association-list lookup, modelling Python dict indexing.  Python dicts
have unique keys, so first-match lookup is exact; `none` models a KeyError. -/
def dget {α : Type} (k : String) : List (String × α) → Option α
  | [] => none
  | (a, v) :: rest => if a = k then some v else dget k rest

/-- Association-list write, modelling Python dict item assignment: the first
binding of the key is replaced in place, otherwise the binding is appended
(Python dicts preserve insertion order and append new keys at the end). -/
def dset {α : Type} (k : String) (v : α) : List (String × α) → List (String × α)
  | [] => [(k, v)]
  | (a, w) :: rest => if a = k then (k, v) :: rest else (a, w) :: dset k v rest

/-- Removal of every binding of a key; on unique-keyed association lists this
is exactly the state change performed by Python's `dict.pop`. -/
def derase {α : Type} (k : String) (l : List (String × α)) : List (String × α) :=
  l.filter (fun p => p.1 != k)

/-- Python's `dict.pop(k)` with no default: returns the popped value and the
shrunk dict, or `none` — a KeyError — when the key is absent (this also holds
for `collections.defaultdict`, whose default factory is not consulted by
`pop`). -/
def dpop {α : Type} (k : String) (l : List (String × α)) : Option (α × List (String × α)) :=
  match dget k l with
  | none => none
  | some v => some (v, derase k l)

/-- Ordered sequences of tag-paths, one list of path components per tag. -/
abbrev TagPaths := List (List String)

/-- The `tags` field: dataset role (train / evaluate / predict) to tag-paths. -/
abbrev Tags := List (String × TagPaths)

/-- One role's alignment: null-column insertion indices for X and y. -/
structure XYAlign where
  X : List Int
  y : List Int
  deriving DecidableEq, Repr

/-- The `alignments` field: dataset role to its X/y insertion indices. -/
abbrev Alignments := List (String × XYAlign)

/-- The `exports` field: dataset role to a mapping from export kind
(for example "y", "predictions", "scores") to a file path. -/
abbrev Exports := List (String × List (String × String))

/-- Statistics record produced by the Benchmarker.  The Benchmarker itself
(rest_rpc/core/utils.py) is outside the provided sources and none of the
claims depend on the numeric content of its output, so statistics are carried
as opaque structured data and the scorer is a parameter of the handler. -/
abbrev Stats := List (String × Int)

/-- One role's entry in a results bundle: the statistics and the path the
statistics artifact was exported to. -/
structure MetaStats where
  statistics : Stats
  res_path : String
  deriving DecidableEq, Repr

/-- A per-combination results bundle: dataset role to its statistics entry. -/
abbrev Bundle := List (String × MetaStats)

/-- The `results` field: combination key to results bundle. -/
abbrev Results := List (String × Bundle)

/-- A persisted Project Record, as read and written by `MetaRecords`
(the project id is the key under which the record is stored). -/
structure Record where
  tags : Tags
  alignments : Alignments
  exports : Exports
  in_progress : List String
  results : Results
  is_live : Bool
  deriving DecidableEq, Repr

/-- The Record Store: project id to Project Record. -/
abbrev MetaStore := List (String × Record)

/-- `MetaRecords.read`: returns the record snapshot or `none` for absence
(the store never throws for a missing project; callers branch on presence). -/
def MetaRecords.read (store : MetaStore) (project_id : String) : Option Record :=
  dget project_id store

/-- `MetaRecords.update`: full replacement of the record under the project id;
returns the new snapshot and store, or `none` when the project is absent. -/
def MetaRecords.update (store : MetaStore) (project_id : String) (rec : Record) :
    Option (Record × MetaStore) :=
  match dget project_id store with
  | none => none
  | some _ => some (rec, dset project_id rec store)

/-- The in-process worker stub held by a cache entry (`project['participant']`
in terminate.py, `cache[project_id]['participant']` in predict.py).  The
fields record the state of the external world the handler interacts with:
whether the stub's event loop is running, whether detaching the stub from its
local worker registry raises, and which y-labels `wss_worker.search` yields
per dataset role. -/
structure WorkerStub where
  loopRunning : Bool
  removeRaises : Bool
  labels : String → List Int

/-- The OS-level worker process held by a cache entry
(`project['process']` in terminate.py). -/
structure WSSWProcess where
  alive : Bool
  procId : Nat
  exitcode : Int

/-- One Process Registry entry: the worker process and the worker stub. -/
structure Entry where
  process : WSSWProcess
  participant : WorkerStub

/-- The Process Registry (the module-level `cache` of rest_rpc/initialise.py):
project id to live entry.  In-memory only. -/
abbrev Cache := List (String × Entry)

/-- The uncaught Python exceptions the three handlers can surface; each one
reaches Flask as a 500 Internal Failure response. -/
inductive PyErr
  | keyError
  | attributeError
  | assertionError
  | externalError
  deriving DecidableEq, Repr

/-- A handler's HTTP-visible outcome: 200 with the updated record, 404 via
`ns_api.abort`, 417 via `ns_api.abort`, or an uncaught exception (500). -/
inductive Resp
  | ok (record : Record)
  | notFound
  | expectationFailed
  | fatal (e : PyErr)
  deriving DecidableEq, Repr

/-- The alignment request body as the handler consumes it: `request.json`
may lack the `tags` or `alignments` key, which surfaces as a KeyError. -/
structure AlignReq where
  tags : Option Tags
  alignments : Option Alignments

/-- Embedding of `Alignment.post` (src/rest_rpc/align.py, lines 149-208):
read the record (absent: 404); `assert request.json['tags'] ==
retrieved_metadata['tags']` — a missing `tags` key is a KeyError, caught and
mapped to 404, while a present-but-different `tags` value is an
AssertionError, which the `except KeyError` clause does not catch and which
therefore propagates (500); on a match, set the `alignments` field and write
the full record back. -/
def Alignment.post (store : MetaStore) (project_id : String) (req : AlignReq) :
    Resp × MetaStore :=
  match MetaRecords.read store project_id with
  | none => (.notFound, store)
  | some rec =>
    match req.tags with
    | none => (.notFound, store)
    | some t =>
      if t = rec.tags then
        match req.alignments with
        | none => (.notFound, store)
        | some a =>
          match MetaRecords.update store project_id { rec with alignments := a } with
          | some (r, store') => (.ok r, store')
          | none => (.fatal .keyError, store)
      else
        (.fatal .assertionError, store)

/-- The externally visible effects of one termination, in execution order. -/
inductive TEvent
  | cachePop
  | stubDetach
  | loopStopScheduled
  | loopCloseScheduled
  | procTerminate
  | procJoin
  | procClose
  | storeWrite
  deriving DecidableEq, Repr

/-- Embedding of `Termination.post` (src/rest_rpc/terminate.py, lines 80-166):
read the record (absent: 404); `cache.pop(project_id)` — KeyError when the
project has no cache entry, uncaught (500); detach the stub
(`remove_worker_from_local_worker_registry`, best understood as an external
call whose failure propagates uncaught); if the stub's loop is running,
`loop.call_soon_threadsafe(loop.stop)` schedules the stop and returns an
asyncio `Handle`, and the chained `.call_soon_threadsafe(loop.close)` on that
`Handle` — which exposes only `cancel`/`cancelled` — raises AttributeError,
uncaught; otherwise, if the process is alive, terminate / join / close it
(`join` guarantees `is_alive()` is false afterwards, so the assert passes);
finally set `is_live` to false and write the full record back. -/
def Termination.post (store : MetaStore) (cache : Cache) (project_id : String) :
    Resp × MetaStore × Cache × List TEvent :=
  match MetaRecords.read store project_id with
  | none => (.notFound, store, cache, [])
  | some rec =>
    match dpop project_id cache with
    | none => (.fatal .keyError, store, cache, [])
    | some (project, cache') =>
      if project.participant.removeRaises then
        (.fatal .externalError, store, cache', [.cachePop])
      else if project.participant.loopRunning then
        (.fatal .attributeError, store, cache',
          [.cachePop, .stubDetach, .loopStopScheduled])
      else
        match MetaRecords.update store project_id { rec with is_live := false } with
        | some (r, store') =>
          (.ok r, store', cache',
            [TEvent.cachePop, TEvent.stubDetach] ++
              (if project.process.alive then
                [TEvent.procTerminate, TEvent.procJoin, TEvent.procClose] else []) ++
              [TEvent.storeWrite])
        | none =>
          (.fatal .keyError, store, cache',
            [TEvent.cachePop, TEvent.stubDetach] ++
              (if project.process.alive then
                [TEvent.procTerminate, TEvent.procJoin, TEvent.procClose] else []))

/-- Modelled from the spec: `construct_combination_key` lives in
rest_rpc/core/utils.py, which is not among the provided sources; section 4.2
of the spec describes it as deterministically joining the experiment and run
identifiers with a fixed separator. -/
def construct_combination_key (expt_id run_id : String) : String :=
  expt_id ++ "-" ++ run_id

/-- A matrix of submitted prediction values.  The numeric content is opaque
to every claim, so entries are carried as integers. -/
abbrev PredMatrix := List (List Int)

/-- One role's submitted inference payload, a JSON object expected to bind
`y_pred` and `y_score`; the empty list models the falsy empty dict. -/
abbrev InfDict := List (String × PredMatrix)

/-- The scorer `Benchmarker(labels, y_pred, y_score).analyse()`, a stateless
function supplied as a parameter (its implementation is outside the provided
sources and outside every claim). -/
abbrev Analyse := List Int → PredMatrix → PredMatrix → Stats

/-- Per-combination output directory, from config.py's PREDICT_TEMPLATE;
`safe_substitute` leaves the `$collab_id` placeholder intact because the
predict route carries no collab id. -/
def predictOutDir (project_id expt_id run_id meta : String) : String :=
  "outputs/$collab_id/" ++ project_id ++ "/" ++ expt_id ++ "/" ++ run_id ++ "/" ++ meta

/-- Export path for predicted labels (config.py `y_pred_outpath`). -/
def yPredPath (project_id expt_id run_id meta : String) : String :=
  predictOutDir project_id expt_id run_id meta ++ "/inference_predictions_" ++ meta ++ ".txt"

/-- Export path for predicted scores (config.py `y_score_outpath`). -/
def yScorePath (project_id expt_id run_id meta : String) : String :=
  predictOutDir project_id expt_id run_id meta ++ "/inference_scores_" ++ meta ++ ".txt"

/-- Export path for the statistics artifact (config.py `stats_outpath`). -/
def statsPath (project_id expt_id run_id meta : String) : String :=
  predictOutDir project_id expt_id run_id meta ++ "/inference_statistics_" ++ meta ++ ".json"

/-- The loop-carried state of the per-role loop in `Prediction.post`: the
`results` dict being assembled (initialised empty), the record's `exports`
mapping being mutated in place, and the files written so far. -/
structure LoopSt where
  results : Bundle
  exports : Exports
  files : List String
  deriving DecidableEq, Repr

/-- One iteration of the per-role loop of `Prediction.post`
(src/rest_rpc/predict.py, lines 248-309).  A falsy (empty) inference payload
is skipped entirely.  Otherwise `y_pred` and `y_score` are read from the
payload (a missing key is a KeyError, raised before any file is written);
labels are fetched from the worker stub, statistics computed, the three
artifact files written, the role's bundle entry recorded, and the role's
`exports` entry updated — the lookup `retrieved_metadata['exports'][meta]`
can itself raise a KeyError, after the three files were already written.
An error value carries the files written up to the failure. -/
def stepMeta (analyse : Analyse) (labels : String → List Int)
    (project_id expt_id run_id : String) (st : LoopSt) (item : String × InfDict) :
    Except (List String) LoopSt :=
  let meta := item.1
  let inference := item.2
  if inference.isEmpty then .ok st
  else
    match dget "y_pred" inference with
    | none => .error st.files
    | some y_pred =>
      match dget "y_score" inference with
      | none => .error st.files
      | some y_score =>
        let statistics := analyse (labels meta) y_pred y_score
        let ypPath := yPredPath project_id expt_id run_id meta
        let ysPath := yScorePath project_id expt_id run_id meta
        let stPath := statsPath project_id expt_id run_id meta
        let files' := st.files ++ [ypPath, ysPath, stPath]
        match dget meta st.exports with
        | none => .error files'
        | some kinds =>
          .ok { results := dset meta ⟨statistics, stPath⟩ st.results,
                exports := dset meta (dset "scores" ysPath (dset "predictions" ypPath kinds)) st.exports,
                files := files' }

/-- The whole per-role loop of `Prediction.post`: left-to-right over the
items of `request.json['inferences']`, short-circuiting on the first
KeyError. -/
def assembleInferences (analyse : Analyse) (labels : String → List Int)
    (project_id expt_id run_id : String) :
    List (String × InfDict) → LoopSt → Except (List String) LoopSt
  | [], st => .ok st
  | item :: rest, st =>
    match stepMeta analyse labels project_id expt_id run_id st item with
    | .error fs => .error fs
    | .ok st' => assembleInferences analyse labels project_id expt_id run_id rest st'

/-- Embedding of `Prediction.post` (src/rest_rpc/predict.py, lines 230-339):
compose the combination key; 404 unless the record exists and the key is in
its `in_progress` set; fetch the worker stub from the cache — this lookup
happens outside the try-block, so a missing session entry surfaces as an
uncaught exception (500), not a 404; run the per-role loop (KeyError: 417
with no store write); then assign the assembled bundle to
`results[expt_run_key]` — overwriting any previous bundle — and write the
full record back.  The third component lists the artifact files written. -/
def Prediction.post (analyse : Analyse) (store : MetaStore) (cache : Cache)
    (project_id expt_id run_id : String) (inferences : List (String × InfDict)) :
    Resp × MetaStore × List String :=
  match MetaRecords.read store project_id with
  | none => (.notFound, store, [])
  | some rec =>
    if construct_combination_key expt_id run_id ∈ rec.in_progress then
      match dget project_id cache with
      | none => (.fatal .keyError, store, [])
      | some project =>
        match assembleInferences analyse project.participant.labels
            project_id expt_id run_id inferences ⟨[], rec.exports, []⟩ with
        | .error files => (.expectationFailed, store, files)
        | .ok st =>
          match MetaRecords.update store project_id
              { rec with exports := st.exports,
                         results := dset (construct_combination_key expt_id run_id)
                           st.results rec.results } with
          | some (r, store') => (.ok r, store', st.files)
          | none => (.fatal .keyError, store, st.files)
    else (.notFound, store, [])

/-- Looking a key up after setting it yields the value just set. -/
theorem dget_dset_self {α : Type} (k : String) (v : α) (l : List (String × α)) :
    dget k (dset k v l) = some v := by
  induction l with
  | nil => simp [dget, dset]
  | cons p rest ih =>
    obtain ⟨a, w⟩ := p
    by_cases h : a = k
    · simp [dget, dset, h]
    · simp [dget, dset, h, ih]

/-- Looking a key up after erasing it yields absence. -/
theorem dget_derase_self {α : Type} (k : String) (l : List (String × α)) :
    dget k (derase k l) = none := by
  induction l with
  | nil => rfl
  | cons p rest ih =>
    obtain ⟨a, w⟩ := p
    by_cases h : a = k
    · simpa [derase, List.filter_cons, h] using ih
    · simpa [derase, List.filter_cons, h, dget] using ih

/-- A sample live Project Record used in concrete runs. -/
def recA : Record :=
  { tags := [("train", [["a", "1"]])],
    alignments := [],
    exports := [("train", [("y", "outputs/y_train.npy")])],
    in_progress := ["e-r"],
    results := [],
    is_live := true }

/-- A live cache entry: loop not running, detach succeeds, process alive. -/
def entryA : Entry :=
  { process := { alive := true, procId := 42, exitcode := 0 },
    participant := { loopRunning := false, removeRaises := false, labels := fun _ => [0, 1] } }

/-- A cache entry whose stub's event loop is running. -/
def entryLoop : Entry :=
  { process := { alive := true, procId := 42, exitcode := 0 },
    participant := { loopRunning := true, removeRaises := false, labels := fun _ => [0, 1] } }

/-- A cache entry whose stub-detach call raises. -/
def entryDetachFail : Entry :=
  { process := { alive := true, procId := 42, exitcode := 0 },
    participant := { loopRunning := false, removeRaises := true, labels := fun _ => [0, 1] } }

/-- `recA` after a successful termination wrote `is_live := false`. -/
def recAEnd : Record := { recA with is_live := false }

/-- Claim C1, counterexample: project "P1" has no live entry in the cache,
yet the termination operation does not yield NotFound — the unconditional
`cache.pop(project_id)` raises an uncaught KeyError (a 500, since the
project's record exists and the handler therefore enters the live branch). -/
theorem C1_no_cache_entry_counterexample :
    dget "P1" ([] : Cache) = none ∧
    (Termination.post [("P1", recA)] [] "P1").1 = Resp.fatal PyErr.keyError ∧
    Resp.fatal PyErr.keyError ≠ Resp.notFound := by
  exact ⟨rfl, rfl, by decide⟩

/-- Claim C1, amended: for every project with no live entry in the cache the
Project Record is left unchanged (and so is the cache, with no events), and
the operation yields NotFound exactly when the record is absent; when the
record exists it instead surfaces an uncaught KeyError from `cache.pop`. -/
theorem C1_no_cache_entry_amended (store : MetaStore) (cache : Cache) (project_id : String)
    (h : dget project_id cache = none) :
    Termination.post store cache project_id =
      ((match MetaRecords.read store project_id with
        | none => Resp.notFound
        | some _ => Resp.fatal PyErr.keyError), store, cache, ([] : List TEvent)) := by
  have hpop : dpop project_id cache = none := by
    unfold dpop
    rw [h]
  unfold Termination.post
  cases hr : MetaRecords.read store project_id with
  | none => simp
  | some rec => simp [hpop]

/-- Witness for the amended C1 at a concrete input. -/
theorem C1_no_cache_entry_witness :
    dget "P1" ([] : Cache) = none ∧
    Termination.post [("P1", recA)] [] "P1" =
      (Resp.fatal PyErr.keyError, [("P1", recA)], ([] : Cache), ([] : List TEvent)) := by
  refine ⟨rfl, ?_⟩
  have h := C1_no_cache_entry_amended [("P1", recA)] [] "P1" rfl
  simpa [MetaRecords.read, dget] using h

/-- An alignment request whose tags differ from the stored tags of `recA`. -/
def reqMismatch : AlignReq :=
  { tags := some [("train", [["b", "2"]])],
    alignments := some [("train", { X := [0], y := [1] })] }

/-- Claim C2, counterexample: submitting tags different from the stored tags
is not rejected with a client-visible validation/not-found error — the bare
`assert` raises an AssertionError that the `except KeyError` clause does not
catch, so the request dies with a 500; the record is indeed unchanged. -/
theorem C2_tag_mismatch_counterexample :
    (Alignment.post [("P1", recA)] "P1" reqMismatch).1 = Resp.fatal PyErr.assertionError ∧
    Resp.fatal PyErr.assertionError ≠ Resp.notFound ∧
    Resp.fatal PyErr.assertionError ≠ Resp.expectationFailed ∧
    (Alignment.post [("P1", recA)] "P1" reqMismatch).2 = [("P1", recA)] := by
  exact ⟨rfl, by decide, by decide, rfl⟩

/-- Claim C2, amended: whenever the submitted tags are present but differ
from the stored tags, the handler terminates with an uncaught AssertionError
(surfaced as a 500 internal failure, not as a NotFound or validation
response) and the store — in particular the record's `alignments` field — is
left unchanged, no update being written. -/
theorem C2_tag_mismatch_amended (store : MetaStore) (project_id : String) (req : AlignReq)
    (rec : Record) (t : Tags)
    (hr : MetaRecords.read store project_id = some rec)
    (ht : req.tags = some t) (hne : ¬ t = rec.tags) :
    Alignment.post store project_id req = (Resp.fatal PyErr.assertionError, store) := by
  unfold Alignment.post
  rw [hr, ht]
  simp [hne]

/-- Witness for the amended C2 at a concrete input. -/
theorem C2_tag_mismatch_witness :
    MetaRecords.read [("P1", recA)] "P1" = some recA ∧
    reqMismatch.tags = some [("train", [["b", "2"]])] ∧
    ¬ [("train", [["b", "2"]])] = recA.tags ∧
    Alignment.post [("P1", recA)] "P1" reqMismatch =
      (Resp.fatal PyErr.assertionError, [("P1", recA)]) := by
  refine ⟨rfl, rfl, by decide, ?_⟩
  exact C2_tag_mismatch_amended [("P1", recA)] "P1" reqMismatch recA _ rfl rfl (by decide)

/-- The position of each termination effect in the intended strict order of
the five lifecycle steps (registry removal, stub detach, loop stop then
close, process terminate then join then close, record write). -/
def stepIndex : TEvent → Nat
  | .cachePop => 0
  | .stubDetach => 1
  | .loopStopScheduled => 2
  | .loopCloseScheduled => 3
  | .procTerminate => 4
  | .procJoin => 5
  | .procClose => 6
  | .storeWrite => 7

/-- Claim C3: every successful termination performs its effects in the
strict step order — the registry removal comes first, the `is_live := false`
record write comes last, the stub detach occurs in between, and no later
effect ever precedes an earlier one. -/
theorem C3_success_event_order (store : MetaStore) (cache : Cache) (project_id : String)
    (r : Record) (s' : MetaStore) (c' : Cache) (evs : List TEvent)
    (h : Termination.post store cache project_id = (Resp.ok r, s', c', evs)) :
    evs.Pairwise (fun a b => stepIndex a < stepIndex b) ∧
    evs.head? = some TEvent.cachePop ∧
    evs.getLast? = some TEvent.storeWrite ∧
    TEvent.stubDetach ∈ evs := by
  unfold Termination.post at h
  split at h
  · simp at h
  split at h
  · simp at h
  next project cacheX hpop =>
  split at h
  · simp at h
  split at h
  · simp at h
  split at h
  next r0 store0 hupd =>
    simp only [Prod.mk.injEq] at h
    obtain ⟨-, -, -, hevs⟩ := h
    rw [← hevs]
    by_cases hal : project.process.alive = true
    · rw [if_pos hal]
      refine ⟨?_, ?_, ?_, ?_⟩ <;> decide
    · rw [if_neg hal]
      refine ⟨?_, ?_, ?_, ?_⟩ <;> decide
  next hupd => simp at h

/-- Witness for C3: a concrete successful termination and its ordered trace. -/
theorem C3_success_event_order_witness :
    Termination.post [("P1", recA)] [("P1", entryA)] "P1" =
      (Resp.ok recAEnd, [("P1", recAEnd)], ([] : Cache),
        [TEvent.cachePop, TEvent.stubDetach, TEvent.procTerminate, TEvent.procJoin,
         TEvent.procClose, TEvent.storeWrite]) ∧
    ([TEvent.cachePop, TEvent.stubDetach, TEvent.procTerminate, TEvent.procJoin,
      TEvent.procClose, TEvent.storeWrite].Pairwise (fun a b => stepIndex a < stepIndex b) ∧
     ([TEvent.cachePop, TEvent.stubDetach, TEvent.procTerminate, TEvent.procJoin,
       TEvent.procClose, TEvent.storeWrite] : List TEvent).head? = some TEvent.cachePop ∧
     ([TEvent.cachePop, TEvent.stubDetach, TEvent.procTerminate, TEvent.procJoin,
       TEvent.procClose, TEvent.storeWrite] : List TEvent).getLast? = some TEvent.storeWrite ∧
     TEvent.stubDetach ∈ [TEvent.cachePop, TEvent.stubDetach, TEvent.procTerminate,
       TEvent.procJoin, TEvent.procClose, TEvent.storeWrite]) := by
  have he : Termination.post [("P1", recA)] [("P1", entryA)] "P1" =
      (Resp.ok recAEnd, [("P1", recAEnd)], ([] : Cache),
        [TEvent.cachePop, TEvent.stubDetach, TEvent.procTerminate, TEvent.procJoin,
         TEvent.procClose, TEvent.storeWrite]) := rfl
  exact ⟨he, C3_success_event_order _ _ _ _ _ _ _ he⟩

/-- Claim C4: at every live session whose event loop is running, the loop
step does not complete — after `call_soon_threadsafe(loop.stop)` schedules
the stop and returns an asyncio Handle, the chained
`.call_soon_threadsafe(loop.close)` on that Handle raises AttributeError, so
termination dies with a 500 before the close is scheduled, before the
process teardown and before the record write. -/
theorem C4_loop_step_raises :
    entryLoop.participant.loopRunning = true ∧
    Termination.post [("P1", recA)] [("P1", entryLoop)] "P1" =
      (Resp.fatal PyErr.attributeError, [("P1", recA)], ([] : Cache),
        [TEvent.cachePop, TEvent.stubDetach, TEvent.loopStopScheduled]) := by
  exact ⟨rfl, rfl⟩

/-- Claim C5, counterexample: the registry entry has been removed (step 1
succeeded) and step 2 (the stub detach) fails, yet `is_live := false` is NOT
written — the handler has no exception handling, so the store is unchanged
and the record still carries `is_live = true`. -/
theorem C5_step_failure_counterexample :
    Termination.post [("P1", recA)] [("P1", entryDetachFail)] "P1" =
      (Resp.fatal PyErr.externalError, [("P1", recA)], ([] : Cache), [TEvent.cachePop]) ∧
    recA.is_live = true ∧
    TEvent.storeWrite ∉ [TEvent.cachePop] := by
  exact ⟨rfl, rfl, by decide⟩

/-- Claim C5, amended: once the registry entry has been removed, a failure in
step 2 (stub detach raises) or step 3 (the loop step, which raises whenever
the loop is running) propagates out of the handler: the Record Store is left
unchanged — `is_live := false` is never written — while the registry entry
stays removed. -/
theorem C5_step_failure_amended (store : MetaStore) (cache : Cache) (project_id : String)
    (rec : Record) (project : Entry) (cache' : Cache)
    (hr : MetaRecords.read store project_id = some rec)
    (hp : dpop project_id cache = some (project, cache'))
    (hfail : project.participant.removeRaises = true ∨ project.participant.loopRunning = true) :
    ∃ e evs, Termination.post store cache project_id = (Resp.fatal e, store, cache', evs) ∧
      TEvent.storeWrite ∉ evs := by
  unfold Termination.post
  rw [hr, hp]
  by_cases hrr : project.participant.removeRaises = true
  · refine ⟨PyErr.externalError, [TEvent.cachePop], ?_, by decide⟩
    simp [hrr]
  · have hlr : project.participant.loopRunning = true := by
      rcases hfail with hf | hf
      · exact absurd hf hrr
      · exact hf
    refine ⟨PyErr.attributeError,
      [TEvent.cachePop, TEvent.stubDetach, TEvent.loopStopScheduled], ?_, by decide⟩
    simp [hrr, hlr]

/-- Witness for the amended C5 at a concrete input. -/
theorem C5_step_failure_witness :
    ∃ e evs, Termination.post [("P1", recA)] [("P1", entryDetachFail)] "P1" =
      (Resp.fatal e, [("P1", recA)], ([] : Cache), evs) ∧ TEvent.storeWrite ∉ evs :=
  C5_step_failure_amended [("P1", recA)] [("P1", entryDetachFail)] "P1" recA entryDetachFail []
    rfl rfl (Or.inl rfl)

/-- Claim C6: whenever termination completes successfully, the returned
record has `is_live = false`, reading the project back from the updated
store yields exactly that record, and a subsequent cache lookup for the
project returns absent. -/
theorem C6_success_postcondition (store : MetaStore) (cache : Cache) (project_id : String)
    (r : Record) (s' : MetaStore) (c' : Cache) (evs : List TEvent)
    (h : Termination.post store cache project_id = (Resp.ok r, s', c', evs)) :
    MetaRecords.read s' project_id = some r ∧ r.is_live = false ∧ dget project_id c' = none := by
  unfold Termination.post at h
  split at h
  · simp at h
  next rec hread =>
  split at h
  · simp at h
  next project cacheX hpop =>
  split at h
  · simp at h
  split at h
  · simp at h
  split at h
  case _ r0 store0 hupd =>
    simp only [Prod.mk.injEq] at h
    obtain ⟨h1, h2, h3, -⟩ := h
    unfold MetaRecords.update at hupd
    split at hupd
    · simp at hupd
    next rec2 hd =>
    simp only [Option.some.injEq, Prod.mk.injEq] at hupd
    obtain ⟨hre, hst⟩ := hupd
    subst hre
    subst hst
    have hr0 : ({ rec with is_live := false } : Record) = r := by
      injection h1
    subst hr0
    subst h2
    subst h3
    refine ⟨?_, rfl, ?_⟩
    · unfold MetaRecords.read
      exact dget_dset_self _ _ _
    · unfold dpop at hpop
      split at hpop
      · simp at hpop
      next v hd2 =>
      simp only [Option.some.injEq, Prod.mk.injEq] at hpop
      obtain ⟨-, hcx⟩ := hpop
      rw [← hcx]
      exact dget_derase_self _ _
  case _ hupd => simp at h

/-- Witness for C6: after a concrete successful termination the record reads
back with `is_live = false` and the cache lookup is absent. -/
theorem C6_success_postcondition_witness :
    Termination.post [("P1", recA)] [("P1", entryA)] "P1" =
      (Resp.ok recAEnd, [("P1", recAEnd)], ([] : Cache),
        [TEvent.cachePop, TEvent.stubDetach, TEvent.procTerminate, TEvent.procJoin,
         TEvent.procClose, TEvent.storeWrite]) ∧
    (MetaRecords.read [("P1", recAEnd)] "P1" = some recAEnd ∧ recAEnd.is_live = false ∧
     dget "P1" ([] : Cache) = none) := by
  have he : Termination.post [("P1", recA)] [("P1", entryA)] "P1" =
      (Resp.ok recAEnd, [("P1", recAEnd)], ([] : Cache),
        [TEvent.cachePop, TEvent.stubDetach, TEvent.procTerminate, TEvent.procJoin,
         TEvent.procClose, TEvent.storeWrite]) := rfl
  exact ⟨he, C6_success_postcondition _ _ _ _ _ _ _ he⟩

/-- A sample scorer standing in for the Benchmarker. -/
def analyseA : Analyse := fun _ _ _ => [("accuracy", 0)]

/-- A sample non-empty inference payload for one role. -/
def infEval : InfDict := [("y_pred", [[1], [0]]), ("y_score", [[0], [1]])]

/-- Claim C7: whenever the project record is absent, or present with a
`in_progress` set not containing the combination key, prediction ingestion
yields NotFound, writes no files and leaves the store unchanged. -/
theorem C7_not_in_progress_notFound (analyse : Analyse) (store : MetaStore) (cache : Cache)
    (project_id expt_id run_id : String) (inferences : List (String × InfDict))
    (h : ∀ rec, MetaRecords.read store project_id = some rec →
      construct_combination_key expt_id run_id ∉ rec.in_progress) :
    Prediction.post analyse store cache project_id expt_id run_id inferences =
      (Resp.notFound, store, []) := by
  unfold Prediction.post
  cases hr : MetaRecords.read store project_id with
  | none => simp [hr]
  | some rec => simp [hr, h rec hr]

/-- Witness for C7 at a concrete input: the record exists but the key
composed from the submitted experiment/run ids is not in progress. -/
theorem C7_not_in_progress_witness :
    (∀ rec, MetaRecords.read [("P1", recA)] "P1" = some rec →
      construct_combination_key "x" "y" ∉ rec.in_progress) ∧
    Prediction.post analyseA [("P1", recA)] [("P1", entryA)] "P1" "x" "y"
        [("train", infEval)] = (Resp.notFound, [("P1", recA)], []) := by
  have h : ∀ rec, MetaRecords.read [("P1", recA)] "P1" = some rec →
      construct_combination_key "x" "y" ∉ rec.in_progress := by
    intro rec hrec
    have h2 : some recA = some rec := hrec
    injection h2 with h3
    subst h3
    decide
  exact ⟨h, C7_not_in_progress_notFound _ _ _ _ _ _ _ h⟩

/-- Claim C8: every successful prediction ingestion stores, under the
combination key, exactly the bundle assembled by this request's per-role
loop — a loop whose bundle starts from the empty dict and never consults the
previously stored bundle — so a re-submission fully replaces the previous
bundle rather than merging into it. -/
theorem C8_results_overwrite (analyse : Analyse) (store : MetaStore) (cache : Cache)
    (project_id expt_id run_id : String) (inferences : List (String × InfDict))
    (r : Record) (s' : MetaStore) (files : List String)
    (h : Prediction.post analyse store cache project_id expt_id run_id inferences =
      (Resp.ok r, s', files)) :
    ∃ rec project st,
      MetaRecords.read store project_id = some rec ∧
      dget project_id cache = some project ∧
      assembleInferences analyse project.participant.labels project_id expt_id run_id
        inferences ⟨[], rec.exports, []⟩ = Except.ok st ∧
      dget (construct_combination_key expt_id run_id) r.results = some st.results := by
  unfold Prediction.post at h
  split at h
  · simp at h
  next rec hread =>
  split at h
  case _ hin =>
    split at h
    · simp at h
    next project hcache =>
    split at h
    · simp at h
    next st hasm =>
    split at h
    case _ r0 store0 hupd =>
      simp only [Prod.mk.injEq] at h
      obtain ⟨h1, -, -⟩ := h
      unfold MetaRecords.update at hupd
      split at hupd
      · simp at hupd
      next rec2 hd =>
      simp only [Option.some.injEq, Prod.mk.injEq] at hupd
      obtain ⟨hre, -⟩ := hupd
      subst hre
      injection h1 with hr0
      subst hr0
      exact ⟨rec, project, st, hread, hcache, hasm, dget_dset_self _ _ _⟩
    case _ hupd => simp at h
  case _ hin => simp at h

/-- All three artifact paths for role "evaluate" of combination ("e","r"). -/
def ypW : String := yPredPath "P1" "e" "r" "evaluate"

/-- Score artifact path for role "evaluate" of combination ("e","r"). -/
def ysW : String := yScorePath "P1" "e" "r" "evaluate"

/-- Statistics artifact path for role "evaluate" of combination ("e","r"). -/
def stW : String := statsPath "P1" "e" "r" "evaluate"

/-- A record with combination "e-r" in progress and a previously stored
results bundle under that key, to exhibit the overwrite. -/
def recB : Record :=
  { tags := [("train", [["a", "1"]])],
    alignments := [],
    exports := [("evaluate", [("y", "outputs/y_evaluate.npy")])],
    in_progress := ["e-r"],
    results := [("e-r", [("train", { statistics := [("accuracy", 7)], res_path := "old_path" })])],
    is_live := true }

/-- `recB` after the concrete prediction ingestion of `infEval`. -/
def recBPred : Record :=
  { recB with
    exports := [("evaluate",
      [("y", "outputs/y_evaluate.npy"), ("predictions", ypW), ("scores", ysW)])],
    results := [("e-r",
      [("evaluate", { statistics := [("accuracy", 0)], res_path := stW })])] }

/-- Witness for C8: a concrete successful re-submission; the old bundle for
"e-r" (holding a "train" entry) is gone, replaced by the new bundle alone. -/
theorem C8_results_overwrite_witness :
    Prediction.post analyseA [("P1", recB)] [("P1", entryA)] "P1" "e" "r"
        [("evaluate", infEval)] =
      (Resp.ok recBPred, [("P1", recBPred)], [ypW, ysW, stW]) ∧
    (∃ rec project st,
      MetaRecords.read [("P1", recB)] "P1" = some rec ∧
      dget "P1" [("P1", entryA)] = some project ∧
      assembleInferences analyseA project.participant.labels "P1" "e" "r"
        [("evaluate", infEval)] ⟨[], rec.exports, []⟩ = Except.ok st ∧
      dget (construct_combination_key "e" "r") recBPred.results = some st.results) := by
  have he : Prediction.post analyseA [("P1", recB)] [("P1", entryA)] "P1" "e" "r"
      [("evaluate", infEval)] =
      (Resp.ok recBPred, [("P1", recBPred)], [ypW, ysW, stW]) := rfl
  exact ⟨he, C8_results_overwrite _ _ _ _ _ _ _ _ _ _ he⟩

/-- Claim C9: every successful alignment apply performs a read-modify-write
of the full record in which only `alignments` changes: the returned (and
stored) record keeps the tags, exports, in-progress set, results and
liveness flag of the record that was read. -/
theorem C9_align_frame (store : MetaStore) (project_id : String) (req : AlignReq)
    (r : Record) (s' : MetaStore)
    (h : Alignment.post store project_id req = (Resp.ok r, s')) :
    ∃ rec a, MetaRecords.read store project_id = some rec ∧ req.alignments = some a ∧
      r.alignments = a ∧ r.tags = rec.tags ∧ r.exports = rec.exports ∧
      r.in_progress = rec.in_progress ∧ r.results = rec.results ∧
      r.is_live = rec.is_live ∧ MetaRecords.read s' project_id = some r := by
  unfold Alignment.post at h
  split at h
  · simp at h
  next rec hread =>
  split at h
  · simp at h
  next t htags =>
  split at h
  case _ hteq =>
    split at h
    · simp at h
    next a halign =>
    split at h
    case _ r0 store0 hupd =>
      simp only [Prod.mk.injEq] at h
      obtain ⟨h1, h2⟩ := h
      unfold MetaRecords.update at hupd
      split at hupd
      · simp at hupd
      next rec2 hd =>
      simp only [Option.some.injEq, Prod.mk.injEq] at hupd
      obtain ⟨hre, hst⟩ := hupd
      subst hre
      subst hst
      injection h1 with hr0
      subst hr0
      subst h2
      refine ⟨rec, a, hread, halign, rfl, rfl, rfl, rfl, rfl, rfl, ?_⟩
      unfold MetaRecords.read
      exact dget_dset_self _ _ _
    case _ hupd => simp at h
  case _ hteq => simp at h

/-- A sample alignment payload. -/
def alignTrain : Alignments := [("train", { X := [0, 2], y := [1] })]

/-- An alignment request whose tags match the stored tags of `recA`. -/
def reqMatch : AlignReq :=
  { tags := some [("train", [["a", "1"]])], alignments := some alignTrain }

/-- `recA` after the alignment apply of `reqMatch`. -/
def recAAligned : Record := { recA with alignments := alignTrain }

/-- Witness for C9 at a concrete successful alignment apply. -/
theorem C9_align_frame_witness :
    Alignment.post [("P1", recA)] "P1" reqMatch = (Resp.ok recAAligned, [("P1", recAAligned)]) ∧
    (∃ rec a, MetaRecords.read [("P1", recA)] "P1" = some rec ∧
      reqMatch.alignments = some a ∧
      recAAligned.alignments = a ∧ recAAligned.tags = rec.tags ∧
      recAAligned.exports = rec.exports ∧ recAAligned.in_progress = rec.in_progress ∧
      recAAligned.results = rec.results ∧ recAAligned.is_live = rec.is_live ∧
      MetaRecords.read [("P1", recAAligned)] "P1" = some recAAligned) := by
  have he : Alignment.post [("P1", recA)] "P1" reqMatch =
      (Resp.ok recAAligned, [("P1", recAAligned)]) := rfl
  exact ⟨he, C9_align_frame _ _ _ _ _ he⟩

/-- A falsy (empty) inference payload is skipped by the loop body: no files,
no bundle entry, no exports change. -/
theorem stepMeta_empty (analyse : Analyse) (labels : String → List Int)
    (project_id expt_id run_id meta : String) (st : LoopSt) :
    stepMeta analyse labels project_id expt_id run_id st (meta, ([] : InfDict)) =
      Except.ok st := rfl

/-- The per-role loop processes a concatenation left to right. -/
theorem assembleInferences_append (analyse : Analyse) (labels : String → List Int)
    (project_id expt_id run_id : String) (xs ys : List (String × InfDict)) (st : LoopSt) :
    assembleInferences analyse labels project_id expt_id run_id (xs ++ ys) st =
      match assembleInferences analyse labels project_id expt_id run_id xs st with
      | .error fs => .error fs
      | .ok st' => assembleInferences analyse labels project_id expt_id run_id ys st' := by
  induction xs generalizing st with
  | nil => rfl
  | cons item rest ih =>
    simp only [List.cons_append, assembleInferences]
    cases stepMeta analyse labels project_id expt_id run_id st item with
    | error fs => rfl
    | ok st2 => exact ih st2

/-- Dropping an empty-payload item from the request leaves the loop's
outcome unchanged, wherever the item sits. -/
theorem assembleInferences_skip_empty (analyse : Analyse) (labels : String → List Int)
    (project_id expt_id run_id meta : String) (pre post : List (String × InfDict))
    (st : LoopSt) :
    assembleInferences analyse labels project_id expt_id run_id
        (pre ++ (meta, ([] : InfDict)) :: post) st =
      assembleInferences analyse labels project_id expt_id run_id (pre ++ post) st := by
  rw [assembleInferences_append, assembleInferences_append]
  cases assembleInferences analyse labels project_id expt_id run_id pre st with
  | error fs => rfl
  | ok st2 => rfl

/-- Claim C10: a dataset role submitted with an empty inference payload is
skipped entirely — the whole prediction ingestion behaves exactly as if the
role were absent from the request, so no files are exported for it, the
record's `exports` entry for it is untouched, and it does not appear in the
bundle stored under the combination key. -/
theorem C10_empty_payload_skipped (analyse : Analyse) (store : MetaStore) (cache : Cache)
    (project_id expt_id run_id meta : String) (pre post : List (String × InfDict)) :
    Prediction.post analyse store cache project_id expt_id run_id
        (pre ++ (meta, ([] : InfDict)) :: post) =
      Prediction.post analyse store cache project_id expt_id run_id (pre ++ post) := by
  unfold Prediction.post
  cases MetaRecords.read store project_id with
  | none => rfl
  | some rec =>
    dsimp only
    by_cases hin : construct_combination_key expt_id run_id ∈ rec.in_progress
    · rw [if_pos hin, if_pos hin]
      cases dget project_id cache with
      | none => rfl
      | some project =>
        dsimp only
        rw [assembleInferences_skip_empty]
    · rw [if_neg hin, if_neg hin]
